import Mathlib

/- A verification development for an equipment build-optimizer: the equipment
data model (fixed attribute-slot rules with validation), the combination
calculator (attribute aggregation plus set bonuses), and the target-matching
search (subset enumeration with penalty-assignment trials and bonus-point
allocation).  Python dictionaries are modelled as association lists that
preserve insertion order; Python floats are modelled as rationals; functions
that raise are modelled with Except.  The gap-recommendation synthesis
(analyze_required_equipments) and the per-slot-type reporting totals are
outside the modelled fragment: no property below depends on them. -/

namespace D2E

/-- The six equipment attributes, in the order of EQUIPMENT_ATTRIBUTES
(生命值, 近戰, 手榴彈, 超能力, 職業, 武器). -/
inductive Attr where
  | health
  | melee
  | grenade
  | superPower
  | classAbility
  | weapon
deriving DecidableEq, Repr

/-- EQUIPMENT_ATTRIBUTES: the fixed iteration order of the six attributes. -/
def ATTRS : List Attr :=
  [Attr.health, Attr.melee, Attr.grenade, Attr.superPower, Attr.classAbility, Attr.weapon]

theorem mem_ATTRS (a : Attr) : a ∈ ATTRS := by
  cases a <;> simp [ATTRS]

/-- Stat-slot classification (主詞條 / 副詞條 / 隨機詞條 / 補充詞條). -/
inductive StatType where
  | main
  | sub
  | random
  | supplement
deriving DecidableEq, Repr

/-- MAX_UPGRADE_LEVEL. -/
def MAX_UPGRADE_LEVEL : Nat := 5

/-- EQUIPMENT_TAGS: tag name to (main attribute, sub attribute).  The keys are
the six Chinese tag names of the source catalog. -/
def EQUIPMENT_TAGS : List (String × Attr × Attr) :=
  [(r"堡壘", Attr.health, Attr.classAbility),
   (r"赤拳互鬥", Attr.melee, Attr.health),
   (r"榴彈兵", Attr.grenade, Attr.superPower),
   (r"至高典範", Attr.superPower, Attr.melee),
   (r"戰術家", Attr.classAbility, Attr.weapon),
   (r"槍手", Attr.weapon, Attr.grenade)]

/- ------------------------------------------------------------------
Association-list dictionaries (Python dict: insertion order preserved,
update in place, lookup by key).
------------------------------------------------------------------ -/

/-- First-match lookup in an association list (Python `d.get(k)` / `d[k]`). -/
def lookupA {κ α : Type} [DecidableEq κ] : List (κ × α) → κ → Option α
  | [], _ => none
  | p :: rest, k => if p.1 = k then some p.2 else lookupA rest k

/-- Python `d.get(k, dflt)`. -/
def getD {κ α : Type} [DecidableEq κ] (d : List (κ × α)) (k : κ) (dflt : α) : α :=
  (lookupA d k).getD dflt

/-- Python `d[k] = v`: update in place if the key exists, else append (Python dict
assignment keeps the original key position). -/
def setA {κ α : Type} [DecidableEq κ] (d : List (κ × α)) (k : κ) (v : α) : List (κ × α) :=
  if (lookupA d k).isSome then
    d.map (fun p => if p.1 = k then (k, v) else p)
  else
    d ++ [(k, v)]

/-- Python `d[k] = d.get(k, 0) + v` for an additive value type. -/
def dictAdd {κ α : Type} [DecidableEq κ] [Add α] (zero : α)
    (d : List (κ × α)) (k : κ) (v : α) : List (κ × α) :=
  setA d k (getD d k zero + v)

/-- Attribute dictionary (a 屬性數值 map). -/
abbrev AttrDict := List (Attr × ℚ)

/-- Bonus-allocation dictionary (屬性 to unit count). -/
abbrev AllocDict := List (Attr × Nat)

/-- Sum of the values of a dictionary (`sum(d.values())`). -/
def sumVals {κ α : Type} [AddCommMonoid α] (d : List (κ × α)) : α :=
  (d.map (fun p => p.2)).sum

/- ------------------------------------------------------------------
Equipment model (equipment.py)
------------------------------------------------------------------ -/

/-- Equipment (裝備): the constructed item.  `attributes` and `stat_tags` are the
post-__post_init__ dictionaries. -/
structure Equipment where
  id : String
  name : String
  type : String
  tag : Option String
  attributes : AttrDict
  stat_tags : List (Attr × StatType)
  set_name : Option String
  level : Nat
  locked_attr : Option Attr
  penalty_attr : Option Attr
deriving DecidableEq, Repr

/-- The raw fields handed to the Equipment constructor, before
__post_init__ normalization and validation run. -/
structure RawEquipment where
  id : String
  name : String
  type : String
  tag : Option String
  attributes : AttrDict
  stat_tags : List (Attr × StatType)
  set_name : Option String
  level : Nat
  locked_attr : Option Attr
  penalty_attr : Option Attr
deriving DecidableEq, Repr

/-- Model of _normalize_attributes: every one of the six attributes gets an entry,
missing ones are appended with value 0 (in EQUIPMENT_ATTRIBUTES order).
The identical loop reappears in calculate_combination to guarantee all six
attributes in the output totals. -/
def normalize_attributes (d : AttrDict) : AttrDict :=
  ATTRS.foldl (fun acc a => if (lookupA acc a).isSome then acc else acc ++ [(a, 0)]) d

/-- The random-slot (隨機詞條) choice inside _generate_stat_tags_from_equipment_tag: the first
non-zero attribute (dict order) that is neither main nor sub and has value
within 0.01 of 20; otherwise the first remaining attribute that is non-zero. -/
def pickRandomAttr (m s : Attr) (attrs : AttrDict) : Option Attr :=
  let nonZero := attrs.filter (fun p => p.2 ≠ 0)
  let remaining := ATTRS.filter (fun a => a ≠ m ∧ a ≠ s)
  match nonZero.find? (fun p => p.1 ≠ m ∧ p.1 ≠ s ∧ |p.2 - 20| < 1/100) with
  | some p => some p.1
  | none => remaining.find? (fun a => (lookupA nonZero a).isSome)

/-- Model of _generate_stat_tags_from_equipment_tag. -/
def generate_stat_tags_from_equipment_tag (tag : String) (attrs : AttrDict) :
    Except String (List (Attr × StatType)) :=
  match lookupA EQUIPMENT_TAGS tag with
  | none => Except.error errUnknownTag
  | some (m, s) =>
    let base : List (Attr × StatType) := [(m, StatType.main), (s, StatType.sub)]
    let withRandom :=
      match pickRandomAttr m s attrs with
      | some r => base ++ [(r, StatType.random)]
      | none => base
    Except.ok (withRandom ++
      (ATTRS.filter (fun a => (lookupA withRandom a).isNone)).map
        (fun a => (a, StatType.supplement)))
where
  errUnknownTag : String := r"未知的裝備標籤"

/-- Model of _generate_stat_tags (no equipment tag, no explicit stat tags): sort the
three non-zero attributes by value descending (stable, like Python sorted)
and classify them Main/Sub/Random; if the non-zero count is not 3 the
stat-tag dictionary is left empty. -/
def generate_stat_tags (attrs : AttrDict) : List (Attr × StatType) :=
  let nonZero := attrs.filter (fun p => p.2 ≠ 0)
  if nonZero.length ≠ 3 then []
  else
    match List.insertionSort (fun p q : Attr × ℚ => q.2 ≤ p.2) nonZero with
    | p0 :: p1 :: p2 :: _ =>
      let base := [(p0.1, StatType.main), (p1.1, StatType.sub), (p2.1, StatType.random)]
      base ++ (ATTRS.filter (fun a => (lookupA base a).isNone)).map
        (fun a => (a, StatType.supplement))
    | _ => []

/-- Model of _validate_attributes as a boolean check: exactly 3 non-zero attributes
whose values, sorted descending, are within 0.01 of [30, 25, 20]. -/
def validAttrValues (attrs : AttrDict) : Bool :=
  let nonZero := attrs.filter (fun p => p.2 ≠ 0)
  let values := List.insertionSort (fun a b : ℚ => b ≤ a) (nonZero.map (fun p => p.2))
  let expected : List ℚ := [30, 25, 20]
  decide (nonZero.length = 3) &&
    (decide (values.length = expected.length) &&
      (values.zip expected).all (fun p => decide (|p.1 - p.2| ≤ 1/100)))

/-- Model of _validate_stat_tags as a boolean check: every attribute tagged, exactly
1 main + 1 sub + 1 random + 3 supplements, main/sub/random base values within
0.01 of 30/25/20, main/sub consistent with the equipment tag when present,
supplement values within [0, level]. -/
def validStatTags (tag : Option String) (attrs : AttrDict)
    (st : List (Attr × StatType)) (level : Nat) : Bool :=
  (ATTRS.all (fun a => (lookupA st a).isSome)) &&
  (let mains := (st.filter (fun p => p.2 = StatType.main)).map (fun p => p.1)
   let subs := (st.filter (fun p => p.2 = StatType.sub)).map (fun p => p.1)
   let randoms := (st.filter (fun p => p.2 = StatType.random)).map (fun p => p.1)
   let supps := (st.filter (fun p => p.2 = StatType.supplement)).map (fun p => p.1)
   decide (mains.length = 1) && decide (subs.length = 1) &&
   decide (randoms.length = 1) && decide (supps.length = 3) &&
   (match mains.head?, subs.head?, randoms.head? with
    | some m, some s, some r =>
      decide (|getD attrs m 0 - 30| ≤ 1/100) &&
      decide (|getD attrs s 0 - 25| ≤ 1/100) &&
      decide (|getD attrs r 0 - 20| ≤ 1/100) &&
      (match tag with
       | none => true
       | some t =>
         match lookupA EQUIPMENT_TAGS t with
         | none => false
         | some (em, es) => decide (m = em) && decide (s = es)) &&
      supps.all (fun a => decide (0 ≤ getD attrs a 0) && decide (getD attrs a 0 ≤ (level : ℚ)))
    | _, _, _ => false))

/-- Error message tokens for the validation failures (the source raises
ValueError with a formatted message; the message text is not a verified
property, only which rule fired). -/
def errAttrValues : String := r"基礎屬性數值驗證失敗"

/-- Error token for a _validate_stat_tags failure. -/
def errStatTags : String := r"詞條標籤驗證失敗"

/-- Equipment construction = dataclass init + __post_init__:
normalize attributes, generate stat tags (from the equipment tag when given,
else auto-derive when no explicit stat tags were supplied), then
_validate_attributes and _validate_stat_tags; any violation raises. -/
def mkEquipment (raw : RawEquipment) : Except String Equipment :=
  let attrs := normalize_attributes raw.attributes
  let tagsE : Except String (List (Attr × StatType)) :=
    match raw.tag with
    | some t => generate_stat_tags_from_equipment_tag t attrs
    | none => if raw.stat_tags.isEmpty then Except.ok (generate_stat_tags attrs)
              else Except.ok raw.stat_tags
  match tagsE with
  | Except.error e => Except.error e
  | Except.ok st =>
    if validAttrValues attrs then
      if validStatTags raw.tag attrs st raw.level then
        Except.ok { id := raw.id, name := raw.name, type := raw.type, tag := raw.tag,
                    attributes := attrs, stat_tags := st, set_name := raw.set_name,
                    level := raw.level, locked_attr := raw.locked_attr,
                    penalty_attr := raw.penalty_attr }
      else Except.error errStatTags
    else Except.error errAttrValues

/-- get_stat_tag: stat-tag lookup defaulting to 補充詞條. -/
def get_stat_tag (e : Equipment) (a : Attr) : StatType :=
  (lookupA e.stat_tags a).getD StatType.supplement

/-- The inner get_base_value of get_max_level_attributes: the fully-upgraded
base value of an attribute by its slot type (Main 30, Sub 25, Random 20,
Supplement MAX_UPGRADE_LEVEL), before lock/penalty adjustment. -/
def get_base_value (e : Equipment) (a : Attr) : ℚ :=
  match get_stat_tag e a with
  | StatType.main => 30
  | StatType.sub => 25
  | StatType.random => 20
  | StatType.supplement => (MAX_UPGRADE_LEVEL : ℚ)

/-- get_max_level_attributes: build the max-level projection over all six
attributes in EQUIPMENT_ATTRIBUTES order, then, when both a locked and a
penalty attribute are set, write locked := base + 5 first and then
penalty := max 0 (base - 5) (so a coinciding penalty overwrites the lock).
A pure read of the item: the stored Equipment is never modified. -/
def get_max_level_attributes (e : Equipment) : AttrDict :=
  let maxAttrs : AttrDict := ATTRS.map (fun a => (a, get_base_value e a))
  match e.locked_attr, e.penalty_attr with
  | some l, some p =>
    setA (setA maxAttrs l (get_base_value e l + 5)) p (max 0 (get_base_value e p - 5))
  | _, _ => maxAttrs

/- ------------------------------------------------------------------
Combination calculator (calculator.py: calculate_combination)
------------------------------------------------------------------ -/

/-- ExoticEquipment (異域裝備): caller-supplied exotic item, already at max level. -/
structure ExoticEquipment where
  name : String
  type : String
  attributes : AttrDict
  level : Nat
deriving DecidableEq, Repr

/-- Inventory lookup by id (inventory.get_equipment). -/
def invLookup (inv : List Equipment) (id : String) : Option Equipment :=
  inv.find? (fun e => e.id == id)

/-- Result of calculate_combination (the fields the verified properties
read; equipment_details and stat_type_totals are reporting-only and are not
modelled). -/
structure CalcResult where
  total_attributes : AttrDict
  equipment_count : Nat
  set_bonuses : List (String × AttrDict)
  set_counts : List (String × Nat)
  missing_equipments : List String
  total_sum : ℚ
  warnings : List String
deriving DecidableEq, Repr

/-- The body of the per-id accumulation loop of calculate_combination: a
found item contributes its max-level attributes to the totals and bumps its
set count; a missing id is recorded and skipped. -/
def accumStep (inv : List Equipment)
    (acc : AttrDict × List (String × Nat) × List String) (id : String) :
    AttrDict × List (String × Nat) × List String :=
  match invLookup inv id with
  | some eq =>
    let totals := (get_max_level_attributes eq).foldl
      (fun t p => dictAdd 0 t p.1 p.2) acc.1
    let sets :=
      match eq.set_name with
      | some s => dictAdd 0 acc.2.1 s 1
      | none => acc.2.1
    (totals, sets, acc.2.2)
  | none => (acc.1, acc.2.1, acc.2.2 ++ [id])

/-- The per-id accumulation loop of calculate_combination. -/
def accumEquipments (inv : List Equipment) (ids : List String) :
    AttrDict × List (String × Nat) × List String :=
  ids.foldl (accumStep inv) ([], [], [])

/-- Python max(list, key=first component): first element with the largest
first component, none for an empty list. -/
def maxByFst {α : Type} : List (Nat × α) → Option (Nat × α)
  | [] => none
  | x :: xs => some (xs.foldl (fun m y => if y.1 > m.1 then y else m) x)

/-- Label of an applied set bonus: f-string "{set_name}({piece_count}件)". -/
def bonusLabel (s : String) (n : Nat) : String :=
  s ++ lparen ++ toString n ++ pieceSuffix
where
  lparen : String := r"("
  pieceSuffix : String := r"件)"

/-- The set-bonus application loop: for every counted set present in the
bonus table, take the tier with the largest requirement that is ≤ the owned
count (if any), add its bonus into the totals, and record it under its
label. -/
def applySetBonuses (table : List (String × List (Nat × AttrDict)))
    (setCounts : List (String × Nat)) (totals : AttrDict) :
    AttrDict × List (String × AttrDict) :=
  setCounts.foldl
    (fun acc sc =>
      match lookupA table sc.1 with
      | none => acc
      | some tiers =>
        let applicable := tiers.filter (fun t => t.1 ≤ sc.2)
        match maxByFst applicable with
        | none => acc
        | some pb =>
          (pb.2.foldl (fun t p => dictAdd 0 t p.1 p.2) acc.1,
           acc.2 ++ [(bonusLabel sc.1 pb.1, pb.2)]))
    (totals, [])

/-- Warning listing the equipment ids that were not found in the inventory
("以下裝備在 ... 的倉庫中不存在: id, id, ..."; the guardian-class display
name interpolated in the source message is outside the modelled state). -/
def missingWarning (missing : List String) : String :=
  warnHead ++ String.intercalate sep missing
where
  warnHead : String := r"以下裝備在倉庫中不存在: "
  sep : String := r", "

/-- calculate_combination: aggregate max-level attributes of the found ids
(plus the exotic item), apply set bonuses, guarantee all six attributes in
the totals, and report count / missing-id warnings.  A missing id never
fails the call. -/
def calculate_combination (table : List (String × List (Nat × AttrDict)))
    (inv : List Equipment) (ids : List String) (exotic : Option ExoticEquipment) :
    CalcResult :=
  let acc := accumEquipments inv ids
  let totals1 :=
    match exotic with
    | some ex => ex.attributes.foldl (fun t p => dictAdd 0 t p.1 p.2) acc.1
    | none => acc.1
  let applied := applySetBonuses table acc.2.1 totals1
  let totals2 := normalize_attributes applied.1
  { total_attributes := totals2,
    equipment_count := ids.length - acc.2.2.length + (if exotic.isSome then 1 else 0),
    set_bonuses := applied.2,
    set_counts := acc.2.1,
    missing_equipments := acc.2.2,
    total_sum := sumVals totals2,
    warnings := if acc.2.2.isEmpty then [] else [missingWarning acc.2.2] }

/- ------------------------------------------------------------------
Bonus-point allocation (calculator.py: _calculate_optimal_bonuses)
------------------------------------------------------------------ -/

/-- One distribution pass over the descending-shortfall list: add one unit
to each listed attribute until the remainder runs out (the loop body adds at
most one unit per attribute and then ends). -/
def distributePass : List (Attr × ℚ) → Nat → AllocDict → AllocDict
  | [], _, al => al
  | _, 0, al => al
  | p :: rest, r + 1, al => distributePass rest r (dictAdd 0 al p.1 1)

/-- Stable descending sort by shortfall (Python sorted(key=value,
reverse=True)). -/
def sortByNeedDesc (needed : List (Attr × ℚ)) : List (Attr × ℚ) :=
  List.insertionSort (fun p q : Attr × ℚ => q.2 ≤ p.2) needed

/-- Model of _calculate_optimal_bonuses: distribute the 5 discrete +10 bonus units.
Shortfall per target attribute is max(0, target - base); units needed per
attribute is ⌊(shortfall + 9) / 10⌋.  See the source for the branch
structure; the remainder distribution is a single pass in descending
shortfall order. -/
def calculate_optimal_bonuses (base : AttrDict) (targets : List (Attr × ℚ))
    (preferred : Option Attr) : AllocDict :=
  let needed : List (Attr × ℚ) :=
    targets.filterMap (fun p =>
      let need := max 0 (p.2 - getD base p.1 0)
      if need > 0 then some (p.1, need) else none)
  if needed.isEmpty then
    let alloc0 : AllocDict := targets.map (fun p => (p.1, 0))
    match preferred with
    | some pa => setA alloc0 pa 5
    | none =>
      let each := 5 / targets.length
      let alloc1 := targets.foldl (fun al p => setA al p.1 each) alloc0
      let rem := 5 % targets.length
      (targets.enum.foldl
        (fun al pi => if pi.1 < rem then dictAdd 0 al pi.2.1 1 else al) alloc1)
  else
    let alloc0 : AllocDict := targets.map (fun p => (p.1, 0))
    let alloc0 :=
      match preferred with
      | some pa => if (lookupA targets pa).isNone then setA alloc0 pa 0 else alloc0
      | none => alloc0
    let totalNeed := (needed.map (fun p => p.2)).sum
    let alloc2 :=
      if totalNeed > 0 then
        let withNeeds := needed.foldl
          (fun al p => setA al p.1 (⌊(p.2 + 9) / 10⌋).toNat) alloc0
        let totalBonusesNeeded :=
          (needed.map (fun p => (⌊(p.2 + 9) / 10⌋).toNat)).sum
        if totalBonusesNeeded > 5 then
          let oneEach := needed.foldl (fun al p => setA al p.1 1) withNeeds
          let currentTotal0 := needed.length
          let scaled :=
            if currentTotal0 > 5 then
              needed.foldl
                (fun al p => setA al p.1 (max 0 ⌊(1 * ((5 : ℚ) / currentTotal0))⌋).toNat)
                oneEach
            else oneEach
          let currentTotal := if currentTotal0 > 5 then sumVals scaled else currentTotal0
          let remaining := 5 - currentTotal
          if remaining > 0 then distributePass (sortByNeedDesc needed) remaining scaled
          else scaled
        else
          let currentTotal := sumVals withNeeds
          let remaining := 5 - currentTotal
          if remaining > 0 then
            match preferred with
            | some pa => dictAdd 0 withNeeds pa remaining
            | none => distributePass (sortByNeedDesc needed) remaining withNeeds
          else withNeeds
      else
        match preferred with
        | some pa => setA alloc0 pa 5
        | none =>
          let each := 5 / targets.length
          let alloc1 := targets.foldl (fun al p => setA al p.1 each) alloc0
          let rem := 5 % targets.length
          targets.enum.foldl
            (fun al pi => if pi.1 < rem then dictAdd 0 al pi.2.1 1 else al) alloc1
    targets.foldl (fun al p => if (lookupA al p.1).isSome then al else setA al p.1 0) alloc2

/- ------------------------------------------------------------------
Target search (calculator.py: find_combination_by_target)
------------------------------------------------------------------ -/

/-- The per-candidate gap scoring loop body: an unmet target attribute adds
the squared shortfall and clears all_met; a met one adds a tenth of the
overshoot. -/
def scoreStep (final : AttrDict) (acc : ℚ × Bool) (p : Attr × ℚ) : ℚ × Bool :=
  let actual := getD final p.1 0
  if actual < p.2 then (acc.1 + (p.2 - actual) ^ 2, false)
  else (acc.1 + (actual - p.2) * (1 / 10), acc.2)

/-- The (score, all_met) computation over the target attributes. -/
def scoreAllMet (final : AttrDict) (targets : List (Attr × ℚ)) : ℚ × Bool :=
  targets.foldl (scoreStep final) (0, true)

/-- Apply a bonus allocation to the totals: +10 per allocated unit. -/
def addBonuses (totals : AttrDict) (alloc : AllocDict) : AttrDict :=
  alloc.foldl (fun t p => dictAdd 0 t p.1 ((p.2 : ℚ) * 10)) totals

/-- itertools.combinations: all size-n sublists, in the input order
(lexicographic by position). -/
def combinationsL {α : Type} : Nat → List α → List (List α)
  | 0, _ => [[]]
  | _ + 1, [] => []
  | n + 1, x :: xs =>
    (combinationsL n xs).map (fun c => x :: c) ++ combinationsL (n + 1) xs

/-- itertools.product over a list of option lists (first factor varies
slowest). -/
def cartesianProd {α : Type} : List (List α) → List (List α)
  | [] => [[]]
  | l :: ls => l.flatMap (fun x => (cartesianProd ls).map (fun c => x :: c))

/-- Model of _generate_penalty_combinations: for every locked-without-penalty item,
the candidate penalty attributes are all attributes other than its own
locked one; the configurations are the Cartesian product across the items,
as id-to-attribute dictionaries. -/
def generate_penalty_combinations (locked : List Equipment) :
    List (List (String × Attr)) :=
  if locked.isEmpty then [[]]
  else
    let options := locked.map
      (fun eq => (eq.id, ATTRS.filter (fun a => some a ≠ eq.locked_attr)))
    (cartesianProd (options.map (fun p => p.2))).map
      (fun combo => (options.map (fun p => p.1)).zip combo)

/-- A candidate configuration: a subset of the candidate pool together with
a trial penalty assignment for its locked-without-penalty items (empty when
there are none). -/
abbrev Cand := List Equipment × List (String × Attr)

/-- The flattened enumeration order of find_combination_by_target: subset
sizes 1..min(max_equipments, pool size) ascending, then combinations of the
pool in itertools order, then penalty assignments in Cartesian-product
order. -/
def candidateConfigs (relevant : List Equipment) (maxN : Nat) : List Cand :=
  (List.range' 1 maxN).flatMap (fun n =>
    (combinationsL n relevant).flatMap (fun combo =>
      let locked := combo.filter
        (fun eq => eq.locked_attr.isSome && eq.penalty_attr.isNone)
      if locked.isEmpty then [(combo, ([] : List (String × Attr)))]
      else (generate_penalty_combinations locked).map (fun cfg => (combo, cfg))))

/-- The inventory as read during a trial: items named by the penalty
configuration carry the trial penalty attribute (the source temporarily
writes eq.penalty_attr before calling calculate_combination and restores it
afterwards; the restore discipline itself is verified on the stateful model
below). -/
def invWithPenalties (inv : List Equipment) (cfg : List (String × Attr)) :
    List Equipment :=
  inv.map (fun eq =>
    match lookupA cfg eq.id with
    | some p => { eq with penalty_attr := some p }
    | none => eq)

/-- Everything the search loop computes for one candidate configuration:
one calculate_combination call, the bonus allocation against its totals,
the post-bonus final attributes, the (score, all_met) pair, and the
preferred-attribute value. -/
structure EvalData where
  ids : List String
  cfg : List (String × Attr)
  totals : AttrDict
  alloc : AllocDict
  final : AttrDict
  score : ℚ
  allMet : Bool
  prefV : ℚ
deriving Repr

/-- Evaluate one candidate configuration. -/
def evalCand (table : List (String × List (Nat × AttrDict))) (inv : List Equipment)
    (targets : List (Attr × ℚ)) (exotic : Option ExoticEquipment)
    (preferred : Option Attr) (c : Cand) : EvalData :=
  let ids := c.1.map (fun eq => eq.id)
  let res := calculate_combination table (invWithPenalties inv c.2) ids exotic
  let alloc := calculate_optimal_bonuses res.total_attributes targets preferred
  let final := addBonuses res.total_attributes alloc
  let sm := scoreAllMet final targets
  { ids := ids, cfg := c.2, totals := res.total_attributes, alloc := alloc,
    final := final, score := sm.1, allMet := sm.2,
    prefV := match preferred with | some pa => getD final pa 0 | none => 0 }

/-- The running best of the search loop (best_score none = float inf;
best_preferred_value starts at -1). -/
structure BestState where
  bestScore : Option ℚ
  bestComb : Option (List String)
  bestTotals : AttrDict
  bestAlloc : AllocDict
  bestPenalty : List (String × Attr)
  bestPreferred : ℚ
deriving Repr

/-- The initial best state. -/
def initBest : BestState :=
  { bestScore := none, bestComb := none, bestTotals := [], bestAlloc := [],
    bestPenalty := [], bestPreferred := -1 }

/-- The is_better selection rule: an all-met candidate beats inf or a
positive best score; against a best of exactly 0 it wins only on a strictly
larger preferred-attribute value (or, without a preferred attribute, a
strictly smaller score); a not-all-met candidate wins on strictly smaller
score alone. -/
def isBetter (preferred : Option Attr) (st : BestState) (d : EvalData) : Bool :=
  if d.allMet then
    match st.bestScore with
    | none => true
    | some bs =>
      if bs > 0 then true
      else if bs = 0 then
        match preferred with
        | some _ => decide (d.prefV > st.bestPreferred)
        | none => decide (d.score < bs)
      else false
  else
    match st.bestScore with
    | none => true
    | some bs => decide (d.score < bs)

/-- The data returned on the exact-match early return. -/
structure EarlyData where
  combination : List String
  finalAttrs : AttrDict
  alloc : AllocDict
  penalty : List (String × Attr)
deriving DecidableEq, Repr

/-- One iteration of the selection loop: update the best on is_better
(recording score 0 whenever all targets are met), and return immediately
when the newly accepted candidate has all_met and score exactly 0. -/
def searchStep (preferred : Option Attr) (st : BestState) (d : EvalData) :
    BestState × Option EarlyData :=
  if isBetter preferred st d then
    let st2 : BestState :=
      { bestScore := some (if d.allMet then 0 else d.score),
        bestComb := some d.ids, bestTotals := d.totals, bestAlloc := d.alloc,
        bestPenalty := d.cfg, bestPreferred := d.prefV }
    if d.allMet ∧ d.score = 0 then (st2, some ⟨d.ids, d.final, d.alloc, d.cfg⟩)
    else (st2, none)
  else (st, none)

/-- Run the selection loop over the candidate list, stopping at an exact
match; the third component counts the evaluated candidates, i.e. the
calculate_combination calls. -/
def runSearch (ev : Cand → EvalData) (preferred : Option Attr) :
    List Cand → BestState → Option EarlyData × BestState × Nat
  | [], st => (none, st, 0)
  | c :: cs, st =>
    let d := ev c
    let sr := searchStep preferred st d
    match sr.2 with
    | some r => (some r, sr.1, 1)
    | none =>
      let rst := runSearch ev preferred cs sr.1
      (rst.1, rst.2.1, rst.2.2 + 1)

/-- Placeholder shape for the recommended hypothetical items of the gap
analysis; their synthesis (_analyze_required_equipments) is not modelled. -/
structure RecommendedItem where
  name : String
  type : String
deriving DecidableEq, Repr

/-- The outcomes of find_combination_by_target.  The two early outcomes
carry the literally empty required_equipments of the source; the gap-analysis
outcomes leave the recommendation list unmodelled. -/
inductive Outcome where
  | emptyInventory
  | noRelevant
  | exactMatch (combination : List String) (finalAttrs : AttrDict)
      (alloc : AllocDict) (penalty : List (String × Attr))
  | overshootMatch (combination : List String) (finalAttrs : AttrDict)
      (alloc : AllocDict) (penalty : List (String × Attr))
  | notFoundBest (combination : List String) (finalAttrs : AttrDict)
      (missing : AttrDict) (alloc : AllocDict) (penalty : List (String × Attr))
  | notFoundNone
deriving DecidableEq, Repr

/-- The result's found flag. -/
def Outcome.found : Outcome → Bool
  | Outcome.exactMatch _ _ _ _ => true
  | Outcome.overshootMatch _ _ _ _ => true
  | _ => false

/-- The returned combination, when one exists. -/
def Outcome.combination : Outcome → Option (List String)
  | Outcome.exactMatch c _ _ _ => some c
  | Outcome.overshootMatch c _ _ _ => some c
  | Outcome.notFoundBest c _ _ _ _ => some c
  | _ => none

/-- The result's required_equipments list where the source pins it: the two
early not-found returns carry a literal empty list; on the gap-analysis
paths the synthesized list is outside the modelled fragment (none). -/
def Outcome.requiredEquipments : Outcome → Option (List RecommendedItem)
  | Outcome.emptyInventory => some []
  | Outcome.noRelevant => some []
  | _ => none

/-- The candidate-pool pre-filter: items whose max-level projection is
positive in at least one target attribute. -/
def relevantPool (inv : List Equipment) (targets : List (Attr × ℚ)) :
    List Equipment :=
  inv.filter (fun eq =>
    targets.any (fun p => decide (getD (get_max_level_attributes eq) p.1 0 > 0)))

/-- find_combination_by_target: the empty-inventory and no-relevant-item
early returns, then the flattened enumeration with the exact-match early
return, then the post-loop re-application of the best bonus allocation.  The
second component counts the evaluated candidate configurations. -/
def find_combination_by_target (table : List (String × List (Nat × AttrDict)))
    (inv : List Equipment) (targets : List (Attr × ℚ)) (max_equipments : Nat)
    (exotic : Option ExoticEquipment) (preferred : Option Attr) : Outcome × Nat :=
  if inv.isEmpty && exotic.isNone then (Outcome.emptyInventory, 0)
  else
    let relevant := relevantPool inv targets
    if relevant.isEmpty then (Outcome.noRelevant, 0)
    else
      let cands := candidateConfigs relevant (min max_equipments relevant.length)
      let r := runSearch (evalCand table inv targets exotic preferred) preferred
        cands initBest
      match r.1 with
      | some e => (Outcome.exactMatch e.combination e.finalAttrs e.alloc e.penalty, r.2.2)
      | none =>
        match r.2.1.bestComb with
        | some ids =>
          let final := addBonuses r.2.1.bestTotals r.2.1.bestAlloc
          let missing := targets.filterMap (fun p =>
            if getD final p.1 0 < p.2 then some (p.1, p.2 - getD final p.1 0) else none)
          if missing.isEmpty then
            (Outcome.overshootMatch ids final r.2.1.bestAlloc r.2.1.bestPenalty, r.2.2)
          else
            (Outcome.notFoundBest ids final missing r.2.1.bestAlloc r.2.1.bestPenalty,
             r.2.2)
        | none => (Outcome.notFoundNone, r.2.2)

/- ------------------------------------------------------------------
The stateful penalty trial/revert protocol of the search (the mutable
eq.penalty_attr writes of the locked-equipment branch, with the
restore-before-early-return and the finally block).
------------------------------------------------------------------ -/

/-- The shared item state the search mutates: each item id's penalty
attribute. -/
abbrev PenaltyStore := String → Option Attr

/-- Write one item's penalty attribute. -/
def setStore (s : PenaltyStore) (i : String) (v : Option Attr) : PenaltyStore :=
  fun j => if j = i then v else s j

/-- The trial-assignment loop: for each locked item named by the penalty
configuration, record its current penalty in original_penalties and then
write the trial penalty. -/
def applyTrial : List String → List (String × Attr) → PenaltyStore →
    PenaltyStore × List (String × Option Attr)
  | [], _, s => (s, [])
  | i :: rest, cfg, s =>
    match lookupA cfg i with
    | some p =>
      let r := applyTrial rest cfg (setStore s i (some p))
      (r.1, (i, s i) :: r.2)
    | none => applyTrial rest cfg s

/-- The restore loop (the body of the finally block, and of the
restore-before-return of the early exact-match path): write back every
recorded original penalty. -/
def restoreTrial : List String → List (String × Option Attr) → PenaltyStore →
    PenaltyStore
  | [], _, s => s
  | i :: rest, orig, s =>
    match lookupA orig i with
    | some v => restoreTrial rest orig (setStore s i v)
    | none => restoreTrial rest orig s

/-- How one trial's scoring can end: an exception from
calculate_combination or the scoring, the exact-match early return, or
normal fall-through to the next configuration. -/
inductive TrialOutcome (E A : Type) where
  | raised (e : E)
  | earlyReturn (a : A)
  | normal (a : A)
deriving Repr

/-- One penalty-configuration trial with Python try/finally semantics: set
the trial penalties, run the scoring body on the mutated state; on an
exception the finally block restores and the exception propagates; on the
exact-match early return the code restores inside the try and the finally
block restores again; otherwise the finally block restores and the loop
continues. -/
def evalPenaltyConfig {E A : Type} (locked : List String)
    (cfg : List (String × Attr)) (body : PenaltyStore → Except E (A × Bool))
    (s : PenaltyStore) : PenaltyStore × TrialOutcome E A :=
  let ap := applyTrial locked cfg s
  match body ap.1 with
  | Except.error e => (restoreTrial locked ap.2 ap.1, TrialOutcome.raised e)
  | Except.ok (a, exact) =>
    if exact then
      (restoreTrial locked ap.2 (restoreTrial locked ap.2 ap.1),
       TrialOutcome.earlyReturn a)
    else (restoreTrial locked ap.2 ap.1, TrialOutcome.normal a)

/-- The penalty-configuration loop over one combination: an exception or
the exact-match early return stops it, a normal trial falls through to the
next configuration. -/
def runPenaltyConfigs {E A : Type} (locked : List String)
    (body : PenaltyStore → Except E (A × Bool)) :
    List (List (String × Attr)) → PenaltyStore →
    PenaltyStore × Option (TrialOutcome E A)
  | [], s => (s, none)
  | cfg :: rest, s =>
    let r := evalPenaltyConfig locked cfg body s
    match r.2 with
    | TrialOutcome.raised e => (r.1, some (TrialOutcome.raised e))
    | TrialOutcome.earlyReturn a => (r.1, some (TrialOutcome.earlyReturn a))
    | TrialOutcome.normal _ => runPenaltyConfigs locked body rest r.1

/- ------------------------------------------------------------------
Dictionary lemmas
------------------------------------------------------------------ -/

theorem lookupA_append_of_some {κ α : Type} [DecidableEq κ] {d : List (κ × α)}
    {k : κ} {v : α} (d2 : List (κ × α)) (h : lookupA d k = some v) :
    lookupA (d ++ d2) k = some v := by
  induction d with
  | nil => simp [lookupA] at h
  | cons p rest ih =>
    by_cases hp : p.1 = k
    · simp [lookupA, hp] at h ⊢; exact h
    · simp [lookupA, hp] at h ⊢; exact ih h

theorem lookupA_append_of_none {κ α : Type} [DecidableEq κ] {d : List (κ × α)}
    {k : κ} (d2 : List (κ × α)) (h : lookupA d k = none) :
    lookupA (d ++ d2) k = lookupA d2 k := by
  induction d with
  | nil => simp [lookupA]
  | cons p rest ih =>
    by_cases hp : p.1 = k
    · simp [lookupA, hp] at h
    · simp [lookupA, hp] at h ⊢; exact ih h

theorem lookupA_map_update {κ α : Type} [DecidableEq κ] (d : List (κ × α))
    (k k2 : κ) (v : α) :
    lookupA (d.map (fun p => if p.1 = k then (k, v) else p)) k2 =
      if k2 = k then (if (lookupA d k).isSome then some v else none)
      else lookupA d k2 := by
  induction d with
  | nil => simp [lookupA]
  | cons p rest ih =>
    by_cases hp : p.1 = k
    · by_cases hk2 : k2 = k
      · subst hk2; simp [lookupA, hp]
      · have hk : ¬ k = k2 := fun h => hk2 h.symm
        have hpk2 : ¬ p.1 = k2 := fun h => hk (hp ▸ h)
        simp only [List.map_cons, if_pos hp, lookupA, if_neg hk, if_neg hpk2,
          if_neg hk2] at ih ⊢
        rw [ih]
    · by_cases hpk2 : p.1 = k2
      · have hk2 : ¬ k2 = k := fun h => hp (hpk2.trans h)
        simp only [List.map_cons, if_neg hp, lookupA, if_pos hpk2, if_neg hk2]
      · simp only [List.map_cons, if_neg hp, lookupA, if_neg hpk2]
        rw [ih]

theorem lookupA_setA {κ α : Type} [DecidableEq κ] (d : List (κ × α)) (k k2 : κ)
    (v : α) :
    lookupA (setA d k v) k2 = if k2 = k then some v else lookupA d k2 := by
  unfold setA
  by_cases hs : (lookupA d k).isSome
  · rw [if_pos hs, lookupA_map_update]
    by_cases hk2 : k2 = k
    · simp [hk2, hs]
    · simp [hk2]
  · rw [if_neg hs]
    have hnone : lookupA d k = none := by
      rcases hv : lookupA d k with _ | w
      · rfl
      · rw [hv] at hs; simp at hs
    by_cases hk2 : k2 = k
    · subst hk2
      rw [lookupA_append_of_none _ hnone, if_pos rfl]
      simp [lookupA]
    · rcases hv : lookupA d k2 with _ | w
      · have hk : ¬ k = k2 := fun h => hk2 h.symm
        rw [lookupA_append_of_none _ hv]
        rw [if_neg hk2]
        simp [lookupA, hk]
      · rw [lookupA_append_of_some _ hv]
        rw [if_neg hk2]

theorem lookupA_dictAdd {κ α : Type} [DecidableEq κ] [Add α] (zero : α)
    (d : List (κ × α)) (k k2 : κ) (v : α) :
    lookupA (dictAdd zero d k v) k2 =
      if k2 = k then some (getD d k zero + v) else lookupA d k2 := by
  unfold dictAdd; exact lookupA_setA d k k2 _

theorem lookupA_fill_isSome {κ α : Type} [DecidableEq κ] (zero : α) (L : List κ)
    (d : List (κ × α)) (k : κ)
    (h : k ∈ L ∨ (lookupA d k).isSome) :
    (lookupA (L.foldl
      (fun acc a => if (lookupA acc a).isSome then acc else acc ++ [(a, zero)])
      d) k).isSome := by
  induction L generalizing d with
  | nil =>
    rcases h with h | h
    · simp at h
    · simpa using h
  | cons a L ih =>
    simp only [List.foldl_cons]
    apply ih
    by_cases hd : (lookupA d a).isSome
    · rw [if_pos hd]
      rcases h with h | h
      · rcases List.mem_cons.mp h with h | h
        · subst h; exact Or.inr hd
        · exact Or.inl h
      · exact Or.inr h
    · rw [if_neg hd]
      have hnone : lookupA d a = none := by
        rcases hv : lookupA d a with _ | w
        · rfl
        · rw [hv] at hd; simp at hd
      by_cases hk : k = a
      · subst hk
        refine Or.inr ?_
        rw [lookupA_append_of_none _ hnone]
        simp [lookupA]
      · rcases h with h | h
        · rcases List.mem_cons.mp h with h | h
          · exact absurd h hk
          · exact Or.inl h
        · refine Or.inr ?_
          rcases hv : lookupA d k with _ | w
          · rw [hv] at h; simp at h
          · rw [lookupA_append_of_some _ hv]; simp

theorem normalize_attributes_isSome (d : AttrDict) (a : Attr) :
    (lookupA (normalize_attributes d) a).isSome := by
  unfold normalize_attributes
  exact lookupA_fill_isSome 0 ATTRS d a (Or.inl (mem_ATTRS a))

theorem lookupA_attrs_map (f : Attr → ℚ) (a : Attr) :
    lookupA (ATTRS.map (fun x => (x, f x))) a = some (f a) := by
  cases a <;> rfl

/- ------------------------------------------------------------------
Score lemmas
------------------------------------------------------------------ -/

theorem scoreFold_fst (final : AttrDict) (ts : List (Attr × ℚ)) (acc : ℚ × Bool) :
    (ts.foldl (scoreStep final) acc).1 = acc.1 + (ts.map (fun p =>
      if getD final p.1 0 < p.2 then (p.2 - getD final p.1 0) ^ 2
      else (getD final p.1 0 - p.2) * (1 / 10))).sum := by
  induction ts generalizing acc with
  | nil => simp
  | cons p ts ih =>
    simp only [List.foldl_cons, List.map_cons, List.sum_cons, scoreStep]
    by_cases hp : getD final p.1 0 < p.2
    · simp only [if_pos hp, ih]; ring
    · simp only [if_neg hp, ih]; ring

theorem scoreFold_snd (final : AttrDict) (ts : List (Attr × ℚ)) (acc : ℚ × Bool) :
    (ts.foldl (scoreStep final) acc).2 =
      (acc.2 && ts.all (fun p => decide (¬ getD final p.1 0 < p.2))) := by
  induction ts generalizing acc with
  | nil => simp
  | cons p ts ih =>
    simp only [List.foldl_cons, List.all_cons, scoreStep]
    by_cases hp : getD final p.1 0 < p.2
    · simp [if_pos hp, ih, hp]
    · simp [if_neg hp, ih, hp, Bool.and_assoc]

theorem scoreFold_mono (final : AttrDict) (ts : List (Attr × ℚ)) (acc : ℚ × Bool) :
    acc.1 ≤ (ts.foldl (scoreStep final) acc).1 := by
  rw [scoreFold_fst]
  have : 0 ≤ (ts.map (fun p =>
      if getD final p.1 0 < p.2 then (p.2 - getD final p.1 0) ^ 2
      else (getD final p.1 0 - p.2) * (1 / 10))).sum := by
    apply List.sum_nonneg
    intro x hx
    rcases List.mem_map.mp hx with ⟨p, _, rfl⟩
    by_cases hp : getD final p.1 0 < p.2
    · simp only [if_pos hp]; positivity
    · simp only [if_neg hp]
      have : 0 ≤ getD final p.1 0 - p.2 := by linarith [not_lt.mp hp]
      positivity
  linarith

theorem scoreFold_pos (final : AttrDict) (ts : List (Attr × ℚ)) (acc : ℚ × Bool)
    (h2 : acc.2 = true) (h3 : (ts.foldl (scoreStep final) acc).2 = false) :
    acc.1 < (ts.foldl (scoreStep final) acc).1 := by
  induction ts generalizing acc with
  | nil => rw [List.foldl_nil] at h3; rw [h2] at h3; exact absurd h3 (by simp)
  | cons p ts ih =>
    simp only [List.foldl_cons] at h3 ⊢
    by_cases hp : getD final p.1 0 < p.2
    · have hstep : (scoreStep final acc p).1 = acc.1 + (p.2 - getD final p.1 0) ^ 2 := by
        simp [scoreStep, if_pos hp]
      have hsub : 0 < p.2 - getD final p.1 0 := by linarith
      have hsq : 0 < (p.2 - getD final p.1 0) ^ 2 := pow_pos hsub 2
      calc acc.1 < (scoreStep final acc p).1 := by rw [hstep]; linarith
        _ ≤ (ts.foldl (scoreStep final) (scoreStep final acc p)).1 :=
          scoreFold_mono final ts _
    · have hstep1 : (scoreStep final acc p).1 = acc.1 + (getD final p.1 0 - p.2) * (1 / 10) := by
        simp [scoreStep, if_neg hp]
      have hstep2 : (scoreStep final acc p).2 = acc.2 := by
        simp [scoreStep, if_neg hp]
      have hnn : 0 ≤ (getD final p.1 0 - p.2) * (1 / 10) := by
        have : 0 ≤ getD final p.1 0 - p.2 := by linarith [not_lt.mp hp]
        positivity
      have := ih (scoreStep final acc p) (hstep2.trans h2) h3
      rw [hstep1] at this
      linarith

theorem scoreAllMet_pos_of_not_allMet (final : AttrDict) (ts : List (Attr × ℚ))
    (h : (scoreAllMet final ts).2 = false) : 0 < (scoreAllMet final ts).1 := by
  unfold scoreAllMet at h ⊢
  simpa using scoreFold_pos final ts (0, true) rfl h

theorem evalCand_score_pos (table : List (String × List (Nat × AttrDict)))
    (inv : List Equipment) (targets : List (Attr × ℚ))
    (exotic : Option ExoticEquipment) (preferred : Option Attr) (c : Cand)
    (h : (evalCand table inv targets exotic preferred c).allMet = false) :
    0 < (evalCand table inv targets exotic preferred c).score := by
  unfold evalCand at h ⊢
  exact scoreAllMet_pos_of_not_allMet _ _ h

/- ------------------------------------------------------------------
Claim C2: per-candidate score formula and all_met characterization
------------------------------------------------------------------ -/

/-- C2: for every candidate configuration evaluated during
find_combination_by_target, the score equals the sum over target attributes
of (target - actual)^2 when the post-bonus actual is below target and
(actual - target) * 0.1 otherwise; and all_met is true iff no target
attribute is strictly below its target. -/
theorem claim2_score_formula (table : List (String × List (Nat × AttrDict)))
    (inv : List Equipment) (targets : List (Attr × ℚ))
    (exotic : Option ExoticEquipment) (preferred : Option Attr) (c : Cand) :
    (evalCand table inv targets exotic preferred c).score =
      (targets.map (fun p =>
        if getD (evalCand table inv targets exotic preferred c).final p.1 0 < p.2 then
          (p.2 - getD (evalCand table inv targets exotic preferred c).final p.1 0) ^ 2
        else
          (getD (evalCand table inv targets exotic preferred c).final p.1 0 - p.2)
            * (1 / 10))).sum
    ∧ ((evalCand table inv targets exotic preferred c).allMet = true ↔
        ∀ p ∈ targets,
          ¬ getD (evalCand table inv targets exotic preferred c).final p.1 0 < p.2) := by
  constructor
  · have h1 : (evalCand table inv targets exotic preferred c).score
        = (scoreAllMet (evalCand table inv targets exotic preferred c).final targets).1 := rfl
    rw [h1]
    unfold scoreAllMet
    rw [scoreFold_fst]
    simp
  · have h2 : (evalCand table inv targets exotic preferred c).allMet
        = (scoreAllMet (evalCand table inv targets exotic preferred c).final targets).2 := rfl
    rw [h2]
    unfold scoreAllMet
    rw [scoreFold_snd]
    simp [List.all_eq_true]

/- ------------------------------------------------------------------
Claim C3: bonus-point allocation on the two-target shortfall vector
------------------------------------------------------------------ -/

/-- The C3 test vector: base {}, targets Melee 50 and Grenade 50, no
preferred attribute. -/
def c3targets : List (Attr × ℚ) := [(Attr.melee, 50), (Attr.grenade, 50)]

/-- C3 counterexample: on base={}, target={Melee:50, Grenade:50}, no
preferred attribute, the allocation is {Melee: 2, Grenade: 2}: after the
1-each step only 2 of the 3 remaining units are distributed (the
descending-shortfall pass adds at most one unit per needy attribute), so the
allocated unit counts total 4, not 5 as the claim states. -/
theorem claim3_counterexample :
    calculate_optimal_bonuses [] c3targets none = [(Attr.melee, 2), (Attr.grenade, 2)]
    ∧ sumVals (calculate_optimal_bonuses [] c3targets none) = 4
    ∧ (4 : ℕ) ≠ 5 := by
  refine ⟨by with_unfolding_all decide, by with_unfolding_all decide, by decide⟩

/-- C3 amended: when the per-attribute units needed exceed 5, each needy
attribute gets 1 unit and the remainder is distributed by a single
descending-shortfall pass of at most one extra unit per needy attribute, so
units can remain unassigned: the concrete call yields Melee 1+1 and
Grenade 1+1, totalling min 5 (2 * number of needy attributes) = 4.  When
the units needed fit within 5 (single target Melee 50), all five are
assigned. -/
theorem claim3_amended :
    calculate_optimal_bonuses [] c3targets none
      = [(Attr.melee, 1 + 1), (Attr.grenade, 1 + 1)]
    ∧ sumVals (calculate_optimal_bonuses [] c3targets none) = min 5 (2 * c3targets.length)
    ∧ calculate_optimal_bonuses [] [(Attr.melee, 50)] none = [(Attr.melee, 5)] := by
  refine ⟨by with_unfolding_all decide, by with_unfolding_all decide,
    by with_unfolding_all decide⟩

/- ------------------------------------------------------------------
Claim C7: missing equipment ids in calculate_combination
------------------------------------------------------------------ -/

theorem accum_missing_general (inv : List Equipment) (ids : List String)
    (acc : AttrDict × List (String × Nat) × List String) :
    (ids.foldl (accumStep inv) acc).2.2 =
      acc.2.2 ++ ids.filter (fun i => (invLookup inv i).isNone) := by
  induction ids generalizing acc with
  | nil => simp
  | cons i t ih =>
    simp only [List.foldl_cons, List.filter_cons]
    rcases hv : invLookup inv i with _ | eq
    · rw [ih]
      simp [accumStep, hv]
    · rw [ih]
      simp [accumStep, hv]

theorem accumEquipments_missing (inv : List Equipment) (ids : List String) :
    (accumEquipments inv ids).2.2 = ids.filter (fun i => (invLookup inv i).isNone) := by
  unfold accumEquipments
  rw [accum_missing_general]
  simp

theorem found_count (inv : List Equipment) (ids : List String) :
    ids.length - (ids.filter (fun i => (invLookup inv i).isNone)).length
      = (ids.filter (fun i => (invLookup inv i).isSome)).length := by
  induction ids with
  | nil => rfl
  | cons i t ih =>
    have hle := List.length_filter_le (fun j => (invLookup inv j).isNone) t
    rcases hv : invLookup inv i with _ | eq
    · simp only [List.filter_cons, hv, Option.isNone_none, Option.isSome_none,
        if_pos, List.length_cons]
      simp only [Bool.false_eq_true, if_false]
      omega
    · simp only [List.filter_cons, hv, Option.isNone_some, Option.isSome_some,
        if_pos, List.length_cons]
      simp only [Bool.false_eq_true, if_false]
      omega

/-- C7: an equipment id absent from the inventory never fails
calculate_combination: the missing ids are skipped and reported in the
warnings, equipment_count counts the found ids plus 1 for a supplied exotic
item, and the total-attribute map contains all six attributes. -/
theorem claim7_missing_ids (table : List (String × List (Nat × AttrDict)))
    (inv : List Equipment) (ids : List String) (exotic : Option ExoticEquipment) :
    (∀ a : Attr,
      (lookupA (calculate_combination table inv ids exotic).total_attributes a).isSome)
    ∧ (calculate_combination table inv ids exotic).missing_equipments
        = ids.filter (fun i => (invLookup inv i).isNone)
    ∧ (calculate_combination table inv ids exotic).equipment_count
        = (ids.filter (fun i => (invLookup inv i).isSome)).length
          + (if exotic.isSome then 1 else 0)
    ∧ (calculate_combination table inv ids exotic).warnings
        = (if (calculate_combination table inv ids exotic).missing_equipments.isEmpty
           then []
           else [missingWarning
             (calculate_combination table inv ids exotic).missing_equipments]) := by
  refine ⟨?_, ?_, ?_, ?_⟩
  · intro a
    exact normalize_attributes_isSome _ a
  · exact accumEquipments_missing inv ids
  · show ids.length - (accumEquipments inv ids).2.2.length + _ = _
    rw [accumEquipments_missing, found_count]
  · rfl

/- ------------------------------------------------------------------
Claim C6: set bonus tier selection
------------------------------------------------------------------ -/

theorem maxFold_mem {α : Type} (xs : List (Nat × α)) (x : Nat × α) :
    xs.foldl (fun m y => if y.1 > m.1 then y else m) x = x ∨
      xs.foldl (fun m y => if y.1 > m.1 then y else m) x ∈ xs := by
  induction xs generalizing x with
  | nil => exact Or.inl rfl
  | cons y t ih =>
    simp only [List.foldl_cons]
    rcases ih (if y.1 > x.1 then y else x) with h | h
    · rw [h]
      by_cases hy : y.1 > x.1
      · rw [if_pos hy]; exact Or.inr (List.mem_cons_self y t)
      · rw [if_neg hy]; exact Or.inl rfl
    · exact Or.inr (List.mem_cons_of_mem y h)

theorem maxFold_ge {α : Type} (xs : List (Nat × α)) (x : Nat × α) :
    x.1 ≤ (xs.foldl (fun m y => if y.1 > m.1 then y else m) x).1 ∧
      ∀ z ∈ xs, z.1 ≤ (xs.foldl (fun m y => if y.1 > m.1 then y else m) x).1 := by
  induction xs generalizing x with
  | nil => exact ⟨le_refl _, by simp⟩
  | cons y t ih =>
    simp only [List.foldl_cons]
    by_cases hy : y.1 > x.1
    · rw [if_pos hy]
      obtain ⟨h1, h2⟩ := ih y
      refine ⟨le_trans (le_of_lt hy) h1, ?_⟩
      intro z hz
      rcases List.mem_cons.mp hz with rfl | hz
      · exact h1
      · exact h2 z hz
    · rw [if_neg hy]
      obtain ⟨h1, h2⟩ := ih x
      refine ⟨h1, ?_⟩
      intro z hz
      rcases List.mem_cons.mp hz with rfl | hz
      · exact le_trans (le_of_not_lt hy) h1
      · exact h2 z hz

/-- A three-piece set item for the concrete tier check. -/
def setPiece (i : String) : Equipment :=
  { id := i, name := i, type := r"頭盔", tag := none,
    attributes := [(Attr.health, 30), (Attr.melee, 25), (Attr.grenade, 20),
      (Attr.superPower, 0), (Attr.classAbility, 0), (Attr.weapon, 0)],
    stat_tags := [(Attr.health, StatType.main), (Attr.melee, StatType.sub),
      (Attr.grenade, StatType.random), (Attr.superPower, StatType.supplement),
      (Attr.classAbility, StatType.supplement), (Attr.weapon, StatType.supplement)],
    set_name := some (r"S"), level := 0, locked_attr := none, penalty_attr := none }

/-- The 2-piece bonus of the concrete set table. -/
def c6bonusA : AttrDict := [(Attr.weapon, 7)]

/-- The 4-piece bonus of the concrete set table. -/
def c6bonusB : AttrDict := [(Attr.weapon, 20)]

/-- The concrete tier table {2: bonusA, 4: bonusB}. -/
def c6tiers : List (Nat × AttrDict) := [(2, c6bonusA), (4, c6bonusB)]

/-- The concrete set name. -/
def c6setName : String := r"S"

/-- The concrete set-bonus table. -/
def c6table : List (String × List (Nat × AttrDict)) := [(c6setName, c6tiers)]

/-- The inventory holding exactly three pieces of the set. -/
def c6inv : List Equipment := [setPiece (r"s1"), setPiece (r"s2"), setPiece (r"s3")]

/-- The three owned piece ids. -/
def c6ids : List String := [r"s1", r"s2", r"s3"]

/-- C6: the applied set bonus is that of the largest tier whose requirement
is ≤ the owned count, and no bonus applies when every tier requires more
pieces than owned; concretely, with tiers {2: bonusA, 4: bonusB} and 3 owned
pieces, calculate_combination applies bonusA under the label S(2件) and adds
it into the totals (3 supplements of 5 + bonus 7 = 22 weapon). -/
theorem claim6_set_bonus_tier :
    (∀ (tiers : List (Nat × AttrDict)) (count : Nat),
      (∃ t ∈ tiers, t.1 ≤ count) →
      ∃ pb, maxByFst (tiers.filter (fun t => t.1 ≤ count)) = some pb ∧
        pb ∈ tiers ∧ pb.1 ≤ count ∧ ∀ t ∈ tiers, t.1 ≤ count → t.1 ≤ pb.1)
    ∧ (∀ (tiers : List (Nat × AttrDict)) (count : Nat),
      (∀ t ∈ tiers, count < t.1) →
      maxByFst (tiers.filter (fun t => t.1 ≤ count)) = none)
    ∧ (calculate_combination c6table c6inv c6ids none).set_counts = [(c6setName, 3)]
    ∧ (calculate_combination c6table c6inv c6ids none).set_bonuses
        = [(bonusLabel c6setName 2, c6bonusA)]
    ∧ lookupA (calculate_combination c6table c6inv c6ids none).total_attributes
        Attr.weapon = some 22 := by
  refine ⟨?_, ?_, by with_unfolding_all decide, by with_unfolding_all decide,
    by with_unfolding_all decide⟩
  · intro tiers count hex
    rcases hex with ⟨t, ht, htc⟩
    have hmem : t ∈ tiers.filter (fun u => u.1 ≤ count) := by
      simp only [List.mem_filter, decide_eq_true_eq]
      exact ⟨ht, htc⟩
    rcases hfe : tiers.filter (fun u => u.1 ≤ count) with _ | ⟨x, xs⟩
    · rw [hfe] at hmem; simp at hmem
    · refine ⟨xs.foldl (fun m y => if y.1 > m.1 then y else m) x, ?_, ?_, ?_, ?_⟩
      · rw [hfe]; rfl
      · have hm := maxFold_mem xs x
        have hsub : ∀ z, z ∈ x :: xs → z ∈ tiers := by
          intro z hz
          rw [← hfe] at hz
          exact (List.mem_filter.mp hz).1
        rcases hm with hm | hm
        · rw [hm]; exact hsub x (List.mem_cons_self x xs)
        · exact hsub _ (List.mem_cons_of_mem x hm)
      · have hm := maxFold_mem xs x
        have hsub : ∀ z, z ∈ x :: xs → z.1 ≤ count := by
          intro z hz
          rw [← hfe] at hz
          have := (List.mem_filter.mp hz).2
          simpa using this
        rcases hm with hm | hm
        · rw [hm]; exact hsub x (List.mem_cons_self x xs)
        · exact hsub _ (List.mem_cons_of_mem x hm)
      · intro u hu huc
        have humem : u ∈ x :: xs := by
          rw [← hfe]
          simp only [List.mem_filter, decide_eq_true_eq]
          exact ⟨hu, huc⟩
        obtain ⟨hx, hall⟩ := maxFold_ge xs x
        rcases List.mem_cons.mp humem with rfl | hu2
        · exact hx
        · exact hall u hu2
  · intro tiers count hall
    have hfe : tiers.filter (fun u => u.1 ≤ count) = [] := by
      rw [List.filter_eq_nil_iff]
      intro u hu
      simp only [decide_eq_true_eq, not_le]
      exact hall u hu
    rw [hfe]
    rfl

/-- C6 witness: the general tier-selection facts instantiated on the
concrete tier table with 3 owned pieces: tier 2 is chosen, and with 1 owned
piece no tier applies. -/
theorem claim6_set_bonus_tier_witness :
    (∃ t ∈ c6tiers, t.1 ≤ 3)
    ∧ (∃ pb, maxByFst (c6tiers.filter (fun t => t.1 ≤ 3)) = some pb ∧
        pb ∈ c6tiers ∧ pb.1 ≤ 3 ∧ ∀ t ∈ c6tiers, t.1 ≤ 3 → t.1 ≤ pb.1)
    ∧ (∀ t ∈ c6tiers, 1 < t.1)
    ∧ maxByFst (c6tiers.filter (fun t => t.1 ≤ 1)) = none := by
  refine ⟨⟨(2, c6bonusA), by decide, by decide⟩, ?_, by decide, ?_⟩
  · exact claim6_set_bonus_tier.1 c6tiers 3 ⟨(2, c6bonusA), by decide, by decide⟩
  · exact claim6_set_bonus_tier.2.1 c6tiers 1 (by decide)

/- ------------------------------------------------------------------
Claim C10: attribute normalization at construction
------------------------------------------------------------------ -/

/-- C10: a missing attribute name does not fail construction on that
account: __post_init__ inserts every missing attribute with 0.0 before
validation, so every successfully constructed item's attribute dictionary
contains all six attributes. -/
theorem claim10_attributes_complete (raw : RawEquipment) (e : Equipment)
    (h : mkEquipment raw = Except.ok e) :
    ∀ a : Attr, (lookupA e.attributes a).isSome := by
  intro a
  simp only [mkEquipment] at h
  split at h
  · exact absurd h (by simp)
  · split at h
    · split at h
      · injection h with h2
        subst h2
        exact normalize_attributes_isSome _ a
      · exact absurd h (by simp)
    · exact absurd h (by simp)

/-- The C10 witness raw input: an attribute dictionary listing only the
three non-zero attributes. -/
def c10raw : RawEquipment :=
  { id := r"c10", name := r"C10", type := r"護腿", tag := none,
    attributes := [(Attr.health, 30), (Attr.melee, 25), (Attr.grenade, 20)],
    stat_tags := [], set_name := none, level := 0,
    locked_attr := none, penalty_attr := none }

/-- The item c10raw constructs to. -/
def c10item : Equipment :=
  { id := r"c10", name := r"C10", type := r"護腿", tag := none,
    attributes := [(Attr.health, 30), (Attr.melee, 25), (Attr.grenade, 20),
      (Attr.superPower, 0), (Attr.classAbility, 0), (Attr.weapon, 0)],
    stat_tags := [(Attr.health, StatType.main), (Attr.melee, StatType.sub),
      (Attr.grenade, StatType.random), (Attr.superPower, StatType.supplement),
      (Attr.classAbility, StatType.supplement), (Attr.weapon, StatType.supplement)],
    set_name := none, level := 0, locked_attr := none, penalty_attr := none }

/-- C10 witness: constructing from a 3-entry attribute dictionary succeeds
and the constructed item has an entry for the initially missing 武器. -/
theorem claim10_attributes_complete_witness :
    mkEquipment c10raw = Except.ok c10item
    ∧ (lookupA c10item.attributes Attr.weapon).isSome := by
  refine ⟨by with_unfolding_all rfl, ?_⟩
  exact claim10_attributes_complete c10raw c10item (by with_unfolding_all rfl) Attr.weapon

/- ------------------------------------------------------------------
Claim C8: base attribute-value validation
------------------------------------------------------------------ -/

instance ratFlipLeIsTotal : IsTotal ℚ (fun a b : ℚ => b ≤ a) :=
  ⟨fun a b => le_total b a⟩

instance ratFlipLeIsTrans : IsTrans ℚ (fun a b : ℚ => b ≤ a) :=
  ⟨fun _ _ _ h1 h2 => le_trans h2 h1⟩

instance ratFlipLeIsAntisymm : IsAntisymm ℚ (fun a b : ℚ => b ≤ a) :=
  ⟨fun _ _ h1 h2 => le_antisymm h2 h1⟩

theorem mk_error_of_validAttrValues_false (raw : RawEquipment)
    (h : validAttrValues (normalize_attributes raw.attributes) = false) :
    ∃ msg, mkEquipment raw = Except.error msg := by
  simp only [mkEquipment]
  split
  · exact ⟨_, rfl⟩
  · rw [if_neg (by simp [h])]
    exact ⟨errAttrValues, rfl⟩

/-- C8: constructing an Equipment raises a validation error whenever the
number of non-zero base attributes is not exactly 3, or the non-zero values,
sorted descending, deviate from [30, 25, 20] by more than 0.01 in some
component; an attribute dictionary whose non-zero values are exactly a
permutation of {30, 25, 20} passes this base-value check (later stat-tag
checks may still fail). -/
theorem claim8_validation (raw : RawEquipment) (attrs : AttrDict) :
    ((((normalize_attributes raw.attributes).filter (fun p => p.2 ≠ 0)).length ≠ 3 →
        ∃ msg, mkEquipment raw = Except.error msg))
    ∧ ((∃ pr ∈ (List.insertionSort (fun a b : ℚ => b ≤ a)
          (((normalize_attributes raw.attributes).filter (fun p => p.2 ≠ 0)).map
            (fun p => p.2))).zip [(30 : ℚ), 25, 20], ¬ |pr.1 - pr.2| ≤ 1 / 100) →
        ∃ msg, mkEquipment raw = Except.error msg)
    ∧ (((attrs.filter (fun p => p.2 ≠ 0)).map (fun p => p.2)).Perm [30, 25, 20] →
        validAttrValues attrs = true) := by
  refine ⟨?_, ?_, ?_⟩
  · intro hlen
    apply mk_error_of_validAttrValues_false
    simp only [validAttrValues]
    rw [decide_eq_false hlen, Bool.false_and]
  · rintro ⟨pr, hpr, hgt⟩
    apply mk_error_of_validAttrValues_false
    simp only [validAttrValues]
    have hall : ((List.insertionSort (fun a b : ℚ => b ≤ a)
        (((normalize_attributes raw.attributes).filter (fun p => p.2 ≠ 0)).map
          (fun p => p.2))).zip [(30 : ℚ), 25, 20]).all
          (fun p => decide (|p.1 - p.2| ≤ 1 / 100)) = false := by
      rw [Bool.eq_false_iff]
      intro hall
      rw [List.all_eq_true] at hall
      exact hgt (by simpa using hall pr hpr)
    rw [hall, Bool.and_false, Bool.and_false]
  · intro hperm
    have hlen3 : (attrs.filter (fun p => p.2 ≠ 0)).length = 3 := by
      have hl := hperm.length_eq
      simpa using hl
    have hsorted : List.insertionSort (fun a b : ℚ => b ≤ a)
        ((attrs.filter (fun p => p.2 ≠ 0)).map (fun p => p.2)) = [30, 25, 20] := by
      have hperm2 : (List.insertionSort (fun a b : ℚ => b ≤ a)
          ((attrs.filter (fun p => p.2 ≠ 0)).map (fun p => p.2))).Perm [30, 25, 20] :=
        (List.perm_insertionSort _ _).trans hperm
      have hs1 : List.Sorted (fun a b : ℚ => b ≤ a)
          (List.insertionSort (fun a b : ℚ => b ≤ a)
            ((attrs.filter (fun p => p.2 ≠ 0)).map (fun p => p.2))) :=
        List.sorted_insertionSort _ _
      have hs2 : List.Sorted (fun a b : ℚ => b ≤ a) [(30 : ℚ), 25, 20] := by
        simp only [List.sorted_cons, List.mem_cons, List.not_mem_nil,
          List.sorted_nil, and_true]
        norm_num
      exact List.eq_of_perm_of_sorted hperm2 hs1 hs2
    simp only [validAttrValues]
    rw [hsorted, hlen3]
    with_unfolding_all decide

/-- The C8 bad input: only two non-zero base attributes. -/
def c8badraw : RawEquipment :=
  { id := r"c8", name := r"C8", type := r"胸鎧", tag := none,
    attributes := [(Attr.health, 30), (Attr.melee, 25)],
    stat_tags := [], set_name := none, level := 0,
    locked_attr := none, penalty_attr := none }

/-- The C8 good input: the values {30, 25, 20} in a non-canonical order. -/
def c8goodattrs : AttrDict :=
  [(Attr.grenade, 20), (Attr.health, 30), (Attr.melee, 25),
   (Attr.superPower, 0), (Attr.classAbility, 0), (Attr.weapon, 0)]

/-- C8 witness: the two-non-zero-attribute input fails construction, and the
permuted {30, 25, 20} input passes the base-value check. -/
theorem claim8_validation_witness :
    (((normalize_attributes c8badraw.attributes).filter (fun p => p.2 ≠ 0)).length ≠ 3)
    ∧ (∃ msg, mkEquipment c8badraw = Except.error msg)
    ∧ ((c8goodattrs.filter (fun p => p.2 ≠ 0)).map (fun p => p.2)).Perm [30, 25, 20]
    ∧ validAttrValues c8goodattrs = true := by
  refine ⟨by with_unfolding_all decide, ?_, by with_unfolding_all decide, ?_⟩
  · exact (claim8_validation c8badraw c8goodattrs).1 (by with_unfolding_all decide)
  · exact (claim8_validation c8badraw c8goodattrs).2.2 (by with_unfolding_all decide)

/- ------------------------------------------------------------------
Claim C5: the max-level projection
------------------------------------------------------------------ -/

/-- The C5 item with coinciding locked and penalty attribute (construction
does not forbid this). -/
def c5raw : RawEquipment :=
  { id := r"c5", name := r"C5", type := r"胸鎧", tag := some (r"堡壘"),
    attributes := [(Attr.health, 30), (Attr.classAbility, 25), (Attr.melee, 20)],
    stat_tags := [], set_name := none, level := 0,
    locked_attr := some Attr.health, penalty_attr := some Attr.health }

/-- The item c5raw constructs to. -/
def c5item : Equipment :=
  { id := r"c5", name := r"C5", type := r"胸鎧", tag := some (r"堡壘"),
    attributes := [(Attr.health, 30), (Attr.classAbility, 25), (Attr.melee, 20),
      (Attr.grenade, 0), (Attr.superPower, 0), (Attr.weapon, 0)],
    stat_tags := [(Attr.health, StatType.main), (Attr.classAbility, StatType.sub),
      (Attr.melee, StatType.random), (Attr.grenade, StatType.supplement),
      (Attr.superPower, StatType.supplement), (Attr.weapon, StatType.supplement)],
    set_name := none, level := 0,
    locked_attr := some Attr.health, penalty_attr := some Attr.health }

/-- C5 counterexample: a successfully constructed item with
locked_attr = penalty_attr = 生命值.  Both fields are set, yet the locked
attribute's projected value is max 0 (30 - 5) = 25, not the 30 + 5 the claim
requires: the penalty write overwrites the lock write when the two
attributes coincide. -/
theorem claim5_counterexample :
    mkEquipment c5raw = Except.ok c5item
    ∧ c5item.locked_attr = some Attr.health
    ∧ c5item.penalty_attr = some Attr.health
    ∧ get_base_value c5item Attr.health = 30
    ∧ lookupA (get_max_level_attributes c5item) Attr.health = some 25
    ∧ ¬ ((25 : ℚ) = 30 + 5) := by
  refine ⟨by with_unfolding_all rfl, by rfl, by rfl, by with_unfolding_all decide,
    by with_unfolding_all decide, by with_unfolding_all decide⟩

/-- C5 amended: for every successfully constructed item,
get_max_level_attributes yields an entry for every one of the six
attributes whose value is the slot-type base (Main 30, Sub 25, Random 20,
Supplement 5 = get_base_value); when and only when both locked_attr and
penalty_attr are set the projection is adjusted, with the penalty write
last: the penalty attribute gets max 0 (base - 5), a distinct locked
attribute gets base + 5 (a coinciding one is overwritten by the penalty). -/
theorem claim5_amended (raw : RawEquipment) (e : Equipment)
    (hmk : mkEquipment raw = Except.ok e) (a : Attr) :
    lookupA (get_max_level_attributes e) a = some (
      match e.locked_attr, e.penalty_attr with
      | some l, some p =>
        if a = p then max 0 (get_base_value e p - 5)
        else if a = l then get_base_value e l + 5
        else get_base_value e a
      | _, _ => get_base_value e a) := by
  unfold get_max_level_attributes
  rcases hl : e.locked_attr with _ | l <;> rcases hp : e.penalty_attr with _ | p
  · exact lookupA_attrs_map (fun x => get_base_value e x) a
  · exact lookupA_attrs_map (fun x => get_base_value e x) a
  · exact lookupA_attrs_map (fun x => get_base_value e x) a
  · have hred : (match some l, some p with
      | some l, some p =>
        if a = p then max 0 (get_base_value e p - 5)
        else if a = l then get_base_value e l + 5
        else get_base_value e a
      | _, _ => get_base_value e a)
      = (if a = p then max 0 (get_base_value e p - 5)
         else if a = l then get_base_value e l + 5
         else get_base_value e a) := rfl
    rw [hred, lookupA_setA]
    by_cases hap : a = p
    · rw [if_pos hap, if_pos hap]
    · rw [if_neg hap, if_neg hap, lookupA_setA]
      by_cases hal : a = l
      · rw [if_pos hal, if_pos hal]
      · rw [if_neg hal, if_neg hal]
        exact lookupA_attrs_map (fun x => get_base_value e x) a

/-- The C5 witness item: locked 生命值, penalty 武器 (distinct). -/
def c5raw2 : RawEquipment :=
  { id := r"c5b", name := r"C5B", type := r"護腿", tag := some (r"堡壘"),
    attributes := [(Attr.health, 30), (Attr.classAbility, 25), (Attr.melee, 20)],
    stat_tags := [], set_name := none, level := 0,
    locked_attr := some Attr.health, penalty_attr := some Attr.weapon }

/-- The item c5raw2 constructs to. -/
def c5item2 : Equipment :=
  { id := r"c5b", name := r"C5B", type := r"護腿", tag := some (r"堡壘"),
    attributes := [(Attr.health, 30), (Attr.classAbility, 25), (Attr.melee, 20),
      (Attr.grenade, 0), (Attr.superPower, 0), (Attr.weapon, 0)],
    stat_tags := [(Attr.health, StatType.main), (Attr.classAbility, StatType.sub),
      (Attr.melee, StatType.random), (Attr.grenade, StatType.supplement),
      (Attr.superPower, StatType.supplement), (Attr.weapon, StatType.supplement)],
    set_name := none, level := 0,
    locked_attr := some Attr.health, penalty_attr := some Attr.weapon }

/-- C5 amended witness: on the distinct lock/penalty item the locked 生命值
projects to 30 + 5 = 35. -/
theorem claim5_amended_witness :
    mkEquipment c5raw2 = Except.ok c5item2
    ∧ lookupA (get_max_level_attributes c5item2) Attr.health = some 35 := by
  refine ⟨by with_unfolding_all rfl, ?_⟩
  have h := claim5_amended c5raw2 c5item2 (by with_unfolding_all rfl) Attr.health
  exact h.trans (by with_unfolding_all decide)

/- ------------------------------------------------------------------
Claim C9: the no-relevant-item early return
------------------------------------------------------------------ -/

/-- C9: when no inventory item's max-level projection is positive in any
target attribute, find_combination_by_target returns found = false
immediately with an empty required_equipments list and zero candidate
evaluations, even when a supplied exotic item would meet every target by
itself: the exotic item is never evaluated as a combination on its own. -/
theorem claim9_no_relevant (table : List (String × List (Nat × AttrDict)))
    (inv : List Equipment) (targets : List (Attr × ℚ)) (max_equipments : Nat)
    (exotic : Option ExoticEquipment) (preferred : Option Attr)
    (h : ∀ eq ∈ inv, ∀ p ∈ targets,
      ¬ (0 < getD (get_max_level_attributes eq) p.1 0)) :
    (find_combination_by_target table inv targets max_equipments exotic
        preferred).1.found = false
    ∧ (find_combination_by_target table inv targets max_equipments exotic
        preferred).1.requiredEquipments = some []
    ∧ (find_combination_by_target table inv targets max_equipments exotic
        preferred).2 = 0 := by
  have hrel : relevantPool inv targets = [] := by
    unfold relevantPool
    rw [List.filter_eq_nil_iff]
    intro eq heq
    simp only [List.any_eq_true, decide_eq_true_eq]
    rintro ⟨p, hp, hpos⟩
    exact h eq heq p hp hpos
  simp only [find_combination_by_target, hrel]
  by_cases hc : (inv.isEmpty && exotic.isNone) = true
  · rw [if_pos hc]
    exact ⟨rfl, rfl, rfl⟩
  · rw [if_neg hc]
    exact ⟨rfl, rfl, rfl⟩

/-- The C9 witness exotic item: alone it exceeds the 生命值-50 target. -/
def c9exotic : ExoticEquipment :=
  { name := r"異域頭盔", type := r"頭盔",
    attributes := [(Attr.health, 100)], level := 5 }

/-- C9 witness: with an empty inventory and the exotic item meeting the
target on its own, the search still returns found = false with an empty
recommendation list and performs no candidate evaluation. -/
theorem claim9_no_relevant_witness :
    ((50 : ℚ) ≤ getD c9exotic.attributes Attr.health 0)
    ∧ (find_combination_by_target [] [] [(Attr.health, 50)] 5 (some c9exotic)
        none).1.found = false
    ∧ (find_combination_by_target [] [] [(Attr.health, 50)] 5 (some c9exotic)
        none).1.requiredEquipments = some []
    ∧ (find_combination_by_target [] [] [(Attr.health, 50)] 5 (some c9exotic)
        none).2 = 0 := by
  have h := claim9_no_relevant [] [] [(Attr.health, 50)] 5 (some c9exotic) none
    (by simp)
  exact ⟨by with_unfolding_all decide, h.1, h.2.1, h.2.2⟩

/- ------------------------------------------------------------------
Claim C4: the trial/revert discipline restores shared item state
------------------------------------------------------------------ -/

theorem setStore_self (s : PenaltyStore) (i : String) : setStore s i (s i) = s := by
  funext j
  unfold setStore
  by_cases h : j = i
  · rw [if_pos h, h]
  · rw [if_neg h]

theorem setStore_collapse (s : PenaltyStore) (i : String) (v w : Option Attr) :
    setStore (setStore s i v) i w = setStore s i w := by
  funext j
  unfold setStore
  by_cases h : j = i
  · rw [if_pos h, if_pos h]
  · rw [if_neg h, if_neg h, if_neg h]

theorem setStore_comm (s : PenaltyStore) (i j : String) (v w : Option Attr)
    (h : i ≠ j) : setStore (setStore s i v) j w = setStore (setStore s j w) i v := by
  funext x
  unfold setStore
  by_cases hx : x = j
  · have hxi : ¬ x = i := fun hh => h (by rw [← hh, hx])
    simp only [if_pos hx, if_neg hxi]
  · by_cases hx2 : x = i
    · simp only [if_neg hx, if_pos hx2]
    · simp only [if_neg hx, if_neg hx2]

theorem lookupA_cons_same {κ α : Type} [DecidableEq κ] (i : κ) (v : α)
    (d : List (κ × α)) : lookupA ((i, v) :: d) i = some v := by
  simp [lookupA]

theorem lookupA_cons_ne {κ α : Type} [DecidableEq κ] {i j : κ} (v : α)
    (d : List (κ × α)) (h : ¬ i = j) : lookupA ((i, v) :: d) j = lookupA d j := by
  simp [lookupA, h]

theorem applyTrial_cons_some {rest : List String} {cfg : List (String × Attr)}
    {s : PenaltyStore} {i : String} {p : Attr} (h : lookupA cfg i = some p) :
    applyTrial (i :: rest) cfg s
      = ((applyTrial rest cfg (setStore s i (some p))).1,
         (i, s i) :: (applyTrial rest cfg (setStore s i (some p))).2) := by
  simp only [applyTrial, h]

theorem applyTrial_cons_none {rest : List String} {cfg : List (String × Attr)}
    {s : PenaltyStore} {i : String} (h : lookupA cfg i = none) :
    applyTrial (i :: rest) cfg s = applyTrial rest cfg s := by
  simp only [applyTrial, h]

theorem restoreTrial_cons_some {rest : List String}
    {orig : List (String × Option Attr)} {s : PenaltyStore} {i : String}
    {v : Option Attr} (h : lookupA orig i = some v) :
    restoreTrial (i :: rest) orig s = restoreTrial rest orig (setStore s i v) := by
  simp only [restoreTrial, h]

theorem restoreTrial_cons_none {rest : List String}
    {orig : List (String × Option Attr)} {s : PenaltyStore} {i : String}
    (h : lookupA orig i = none) :
    restoreTrial (i :: rest) orig s = restoreTrial rest orig s := by
  simp only [restoreTrial, h]

theorem applyTrial_orig_keys (locked : List String) (cfg : List (String × Attr)) :
    ∀ (s : PenaltyStore) (j : String),
      (lookupA (applyTrial locked cfg s).2 j).isSome → j ∈ locked := by
  induction locked with
  | nil => intro s j hj; simp [applyTrial, lookupA] at hj
  | cons i rest ih =>
    intro s j hj
    rcases hc : lookupA cfg i with _ | p
    · rw [applyTrial_cons_none hc] at hj
      exact List.mem_cons_of_mem i (ih s j hj)
    · simp only [applyTrial_cons_some hc] at hj
      by_cases hji : i = j
      · exact hji ▸ List.mem_cons_self i rest
      · rw [lookupA_cons_ne _ _ hji] at hj
        exact List.mem_cons_of_mem i (ih (setStore s i (some p)) j hj)

theorem applyTrial_orig_values (locked : List String) (cfg : List (String × Attr)) :
    ∀ (s : PenaltyStore), locked.Nodup → ∀ (j : String) (v : Option Attr),
      lookupA (applyTrial locked cfg s).2 j = some v → v = s j := by
  induction locked with
  | nil => intro s _ j v hj; simp [applyTrial, lookupA] at hj
  | cons i rest ih =>
    intro s hn j v hj
    obtain ⟨hni, hnr⟩ := List.nodup_cons.mp hn
    rcases hc : lookupA cfg i with _ | p
    · rw [applyTrial_cons_none hc] at hj
      exact ih s hnr j v hj
    · simp only [applyTrial_cons_some hc] at hj
      by_cases hji : i = j
      · rw [← hji, lookupA_cons_same] at hj
        injection hj with h2
        rw [← h2, hji]
      · rw [lookupA_cons_ne _ _ hji] at hj
        have hv := ih (setStore s i (some p)) hnr j v hj
        rw [hv]
        unfold setStore
        rw [if_neg (fun hh => hji hh.symm)]

theorem restoreTrial_irrelevant (rest : List String)
    (orig : List (String × Option Attr)) (i : String) (v : Option Attr) :
    ∀ (s : PenaltyStore), i ∉ rest →
      restoreTrial rest ((i, v) :: orig) s = restoreTrial rest orig s := by
  induction rest with
  | nil => intro s _; rfl
  | cons j t ih =>
    intro s h
    have hij : ¬ i = j := fun hh => h (hh ▸ List.mem_cons_self j t)
    rcases hv : lookupA orig j with _ | w
    · rw [restoreTrial_cons_none (by rw [lookupA_cons_ne _ _ hij, hv]),
        restoreTrial_cons_none hv]
      exact ih _ (fun hh => h (List.mem_cons_of_mem j hh))
    · rw [restoreTrial_cons_some (show lookupA ((i, v) :: orig) j = some w by
          rw [lookupA_cons_ne _ _ hij, hv]),
        restoreTrial_cons_some hv]
      exact ih _ (fun hh => h (List.mem_cons_of_mem j hh))

theorem restoreTrial_setStore (rest : List String)
    (orig : List (String × Option Attr)) (i : String) (v : Option Attr) :
    ∀ (s : PenaltyStore), i ∉ rest →
      restoreTrial rest orig (setStore s i v)
        = setStore (restoreTrial rest orig s) i v := by
  induction rest with
  | nil => intro s _; rfl
  | cons j t ih =>
    intro s h
    have hij : i ≠ j := fun hh => h (hh ▸ List.mem_cons_self j t)
    rcases hv : lookupA orig j with _ | w
    · rw [restoreTrial_cons_none hv, restoreTrial_cons_none hv]
      exact ih _ (fun hh => h (List.mem_cons_of_mem j hh))
    · rw [restoreTrial_cons_some hv, restoreTrial_cons_some hv]
      rw [setStore_comm s i j v w hij]
      exact ih _ (fun hh => h (List.mem_cons_of_mem j hh))

theorem restore_applyTrial (locked : List String) (cfg : List (String × Attr)) :
    ∀ (s : PenaltyStore), locked.Nodup →
      restoreTrial locked (applyTrial locked cfg s).2 (applyTrial locked cfg s).1
        = s := by
  induction locked with
  | nil => intro s _; rfl
  | cons i rest ih =>
    intro s hn
    obtain ⟨hni, hnr⟩ := List.nodup_cons.mp hn
    rcases hc : lookupA cfg i with _ | p
    · simp only [applyTrial_cons_none hc]
      have hkeys : lookupA (applyTrial rest cfg s).2 i = none := by
        rcases hv : lookupA (applyTrial rest cfg s).2 i with _ | w
        · rfl
        · exact absurd (applyTrial_orig_keys rest cfg s i (by simp [hv])) hni
      rw [restoreTrial_cons_none hkeys]
      exact ih s hnr
    · simp only [applyTrial_cons_some hc]
      rw [restoreTrial_cons_some (lookupA_cons_same i (s i) _)]
      rw [restoreTrial_irrelevant rest _ i (s i) _ hni]
      rw [restoreTrial_setStore rest _ i (s i) _ hni]
      rw [ih (setStore s i (some p)) hnr]
      rw [setStore_collapse, setStore_self]

theorem restoreTrial_id (locked : List String) (orig : List (String × Option Attr)) :
    ∀ (s : PenaltyStore), (∀ j v, lookupA orig j = some v → v = s j) →
      restoreTrial locked orig s = s := by
  induction locked with
  | nil => intro s _; rfl
  | cons i rest ih =>
    intro s h
    rcases hv : lookupA orig i with _ | w
    · rw [restoreTrial_cons_none hv]
      exact ih s h
    · rw [restoreTrial_cons_some hv, h i w hv, setStore_self]
      exact ih s h

theorem evalPenaltyConfig_preserves {E A : Type} (locked : List String)
    (cfg : List (String × Attr)) (body : PenaltyStore → Except E (A × Bool))
    (s : PenaltyStore) (hn : locked.Nodup) :
    (evalPenaltyConfig locked cfg body s).1 = s := by
  simp only [evalPenaltyConfig]
  rcases hb : body (applyTrial locked cfg s).1 with e | av
  · exact restore_applyTrial locked cfg s hn
  · obtain ⟨a2, ex⟩ := av
    cases ex
    · exact restore_applyTrial locked cfg s hn
    · show restoreTrial locked (applyTrial locked cfg s).2
        (restoreTrial locked (applyTrial locked cfg s).2 (applyTrial locked cfg s).1)
        = s
      rw [restore_applyTrial locked cfg s hn]
      exact restoreTrial_id locked _ s
        (fun j v hv => applyTrial_orig_values locked cfg s hn j v hv)

/-- C4: the penalty-configuration loop of the search never leaves a trial
penalty on shared item state: whatever the scoring body does on each trial
(raise, trigger the exact-match early return, or fall through), every item's
penalty attribute equals its pre-call value when the loop ends, because each
trial's assignment is recorded and restored on all control paths (the finally
block, run twice on the early-return path, is idempotent). -/
theorem claim4_penalty_restore {E A : Type} (locked : List String)
    (body : PenaltyStore → Except E (A × Bool))
    (cfgs : List (List (String × Attr))) (s : PenaltyStore)
    (hn : locked.Nodup) :
    (runPenaltyConfigs locked body cfgs s).1 = s := by
  induction cfgs generalizing s with
  | nil => rfl
  | cons cfg rest ih =>
    simp only [runPenaltyConfigs]
    have h1 := evalPenaltyConfig_preserves locked cfg body s hn
    rcases hr : (evalPenaltyConfig locked cfg body s).2 with e | a | a
    · simpa using h1
    · simpa using h1
    · rw [h1]
      exact ih s

/-- The C4 witness store: no penalties assigned anywhere. -/
def c4store : PenaltyStore := fun _ => none

/-- The C4 witness locked-item ids. -/
def c4locked : List String := [r"x", r"y"]

/-- The C4 witness penalty configurations. -/
def c4cfgs : List (List (String × Attr)) :=
  [[(r"x", Attr.melee), (r"y", Attr.health)],
   [(r"x", Attr.weapon), (r"y", Attr.grenade)]]

/-- A C4 witness scoring body that raises. -/
def c4body : PenaltyStore → Except Nat (Nat × Bool) := fun _ => Except.error 7

/-- C4 witness: on two locked items with a raising scorer, the loop leaves
the penalty store untouched. -/
theorem claim4_penalty_restore_witness :
    c4locked.Nodup ∧ (runPenaltyConfigs c4locked c4body c4cfgs c4store).1 = c4store :=
  ⟨by decide, claim4_penalty_restore c4locked c4body c4cfgs c4store (by decide)⟩

/- ------------------------------------------------------------------
Claim C1: the exact-match early return
------------------------------------------------------------------ -/

theorem searchStep_exact (preferred : Option Attr) (st : BestState) (d : EvalData)
    (hst : st.bestScore = none ∨ ∃ q, st.bestScore = some q ∧ 0 < q)
    (hmet : d.allMet = true) (h0 : d.score = 0) :
    (searchStep preferred st d).2 = some ⟨d.ids, d.final, d.alloc, d.cfg⟩ := by
  have hib : isBetter preferred st d = true := by
    unfold isBetter
    rw [hmet]
    rcases hst with hst | ⟨q, hst, hq⟩
    · rw [hst]
      rfl
    · rw [hst]
      simp only [if_true]
      rw [if_pos hq]
  unfold searchStep
  rw [if_pos hib, if_pos (⟨hmet, h0⟩ : d.allMet = true ∧ d.score = 0)]

theorem searchStep_not_met (preferred : Option Attr) (st : BestState) (d : EvalData)
    (hst : st.bestScore = none ∨ ∃ q, st.bestScore = some q ∧ 0 < q)
    (hmet : d.allMet = false) (hpos : 0 < d.score) :
    (searchStep preferred st d).2 = none ∧
      ((searchStep preferred st d).1.bestScore = none ∨
        ∃ q, (searchStep preferred st d).1.bestScore = some q ∧ 0 < q) := by
  unfold searchStep
  by_cases hib : isBetter preferred st d = true
  · rw [if_pos hib, if_neg (by simp [hmet])]
    refine ⟨rfl, Or.inr ⟨d.score, ?_, hpos⟩⟩
    simp [hmet]
  · rw [if_neg hib]
    exact ⟨rfl, hst⟩

theorem runSearch_first_exact (ev : Cand → EvalData) (preferred : Option Attr)
    (hpos : ∀ c, (ev c).allMet = false → 0 < (ev c).score) :
    ∀ (cs : List Cand) (st : BestState),
      (st.bestScore = none ∨ ∃ q, st.bestScore = some q ∧ 0 < q) →
      ∀ (k : Nat) (hk : k < cs.length),
      ((ev (cs.get ⟨k, hk⟩)).allMet = true ∧ (ev (cs.get ⟨k, hk⟩)).score = 0) →
      (∀ j (hj : j < k), (ev (cs.get ⟨j, lt_trans hj hk⟩)).allMet = false) →
      (runSearch ev preferred cs st).1
          = some ⟨(ev (cs.get ⟨k, hk⟩)).ids, (ev (cs.get ⟨k, hk⟩)).final,
              (ev (cs.get ⟨k, hk⟩)).alloc, (ev (cs.get ⟨k, hk⟩)).cfg⟩
        ∧ (runSearch ev preferred cs st).2.2 = k + 1 := by
  intro cs
  induction cs with
  | nil =>
    intro st _ k hk
    exact absurd hk (by simp)
  | cons c rest ih =>
    intro st hst k hk hexact hprev
    match k with
    | 0 =>
      simp only [runSearch]
      rw [searchStep_exact preferred st (ev c) hst hexact.1 hexact.2]
      exact ⟨rfl, rfl⟩
    | Nat.succ j =>
      have hc0 : (ev c).allMet = false := hprev 0 (Nat.succ_pos j)
      obtain ⟨hnone, hstep⟩ :=
        searchStep_not_met preferred st (ev c) hst hc0 (hpos c hc0)
      simp only [runSearch, hnone]
      obtain ⟨ih1, ih2⟩ := ih ((searchStep preferred st (ev c)).1) hstep j
        (Nat.lt_of_succ_lt_succ hk) hexact
        (fun j2 hj2 => hprev (j2 + 1) (Nat.succ_lt_succ hj2))
      refine ⟨ih1, ?_⟩
      rw [ih2]

/-- C1 amended: the first candidate configuration in the enumeration order
(subset sizes ascending, combinations in pool order, penalty assignments in
product order) whose post-bonus attributes meet every target with score
exactly 0 ends the search immediately and is returned as an exact match
with found = true after exactly k + 1 candidate evaluations — PROVIDED no
earlier-evaluated candidate already met all targets.  (The counterexample
shows the claim fails without that proviso: after an all-met overshoot
candidate, a later exact match is not judged better and does not
short-circuit.) -/
theorem claim1_amended (table : List (String × List (Nat × AttrDict)))
    (inv : List Equipment) (targets : List (Attr × ℚ)) (max_equipments : Nat)
    (exotic : Option ExoticEquipment) (preferred : Option Attr) (k : Nat)
    (hk : k < (candidateConfigs (relevantPool inv targets)
        (min max_equipments (relevantPool inv targets).length)).length)
    (hexact : (evalCand table inv targets exotic preferred
        ((candidateConfigs (relevantPool inv targets)
          (min max_equipments (relevantPool inv targets).length)).get
          ⟨k, hk⟩)).allMet = true
      ∧ (evalCand table inv targets exotic preferred
        ((candidateConfigs (relevantPool inv targets)
          (min max_equipments (relevantPool inv targets).length)).get
          ⟨k, hk⟩)).score = 0)
    (hprev : ∀ j (hj : j < k), (evalCand table inv targets exotic preferred
        ((candidateConfigs (relevantPool inv targets)
          (min max_equipments (relevantPool inv targets).length)).get
          ⟨j, lt_trans hj hk⟩)).allMet = false) :
    find_combination_by_target table inv targets max_equipments exotic preferred
      = (Outcome.exactMatch
          (evalCand table inv targets exotic preferred
            ((candidateConfigs (relevantPool inv targets)
              (min max_equipments (relevantPool inv targets).length)).get
              ⟨k, hk⟩)).ids
          (evalCand table inv targets exotic preferred
            ((candidateConfigs (relevantPool inv targets)
              (min max_equipments (relevantPool inv targets).length)).get
              ⟨k, hk⟩)).final
          (evalCand table inv targets exotic preferred
            ((candidateConfigs (relevantPool inv targets)
              (min max_equipments (relevantPool inv targets).length)).get
              ⟨k, hk⟩)).alloc
          (evalCand table inv targets exotic preferred
            ((candidateConfigs (relevantPool inv targets)
              (min max_equipments (relevantPool inv targets).length)).get
              ⟨k, hk⟩)).cfg, k + 1) := by
  have hcs := runSearch_first_exact (evalCand table inv targets exotic preferred)
    preferred (fun c => evalCand_score_pos table inv targets exotic preferred c)
    (candidateConfigs (relevantPool inv targets)
      (min max_equipments (relevantPool inv targets).length))
    initBest (Or.inl rfl) k hk hexact hprev
  have hrelne : relevantPool inv targets ≠ [] := by
    intro hre
    rw [hre] at hk
    simp [candidateConfigs] at hk
  have hinvne : (inv.isEmpty && exotic.isNone) = false := by
    have hne : inv ≠ [] := by
      intro hi
      apply hrelne
      unfold relevantPool
      rw [hi]
      rfl
    rcases hi : inv with _ | ⟨x, xs⟩
    · exact absurd hi hne
    · rfl
  simp only [find_combination_by_target]
  rw [if_neg (by simp [hinvne])]
  rw [if_neg (fun hh => hrelne (List.isEmpty_iff.mp hh))]
  rw [hcs.1]
  rw [hcs.2]

/-- The C1 item whose 生命值 main slot tops out at 30 (overshoots a
75 target after the 5-unit bonus). -/
def itemA : Equipment :=
  { id := r"a", name := r"A", type := r"頭盔", tag := some (r"堡壘"),
    attributes := [(Attr.health, 30), (Attr.classAbility, 25), (Attr.melee, 20),
      (Attr.grenade, 0), (Attr.superPower, 0), (Attr.weapon, 0)],
    stat_tags := [(Attr.health, StatType.main), (Attr.classAbility, StatType.sub),
      (Attr.melee, StatType.random), (Attr.grenade, StatType.supplement),
      (Attr.superPower, StatType.supplement), (Attr.weapon, StatType.supplement)],
    set_name := none, level := 0, locked_attr := none, penalty_attr := none }

/-- The C1 item whose 生命值 sub slot gives 25, hitting a 75 target exactly
with the 5-unit bonus. -/
def itemB : Equipment :=
  { id := r"b", name := r"B", type := r"臂鎧", tag := some (r"赤拳互鬥"),
    attributes := [(Attr.melee, 30), (Attr.health, 25), (Attr.grenade, 20),
      (Attr.superPower, 0), (Attr.classAbility, 0), (Attr.weapon, 0)],
    stat_tags := [(Attr.melee, StatType.main), (Attr.health, StatType.sub),
      (Attr.grenade, StatType.random), (Attr.superPower, StatType.supplement),
      (Attr.classAbility, StatType.supplement), (Attr.weapon, StatType.supplement)],
    set_name := none, level := 0, locked_attr := none, penalty_attr := none }

/-- The C1 counterexample inventory. -/
def c1inv : List Equipment := [itemA, itemB]

/-- The C1 target profile: 生命值 75. -/
def c1targets : List (Attr × ℚ) := [(Attr.health, 75)]

/-- C1 counterexample: the second evaluated candidate configuration
([itemB] with the 5-unit bonus on 生命值: 25 + 50 = 75) meets every target
with score exactly 0, yet the search does not end there: the first
candidate ([itemA], all-met with overshoot 80 > 75) was already accepted
with best score 0, so the exact match is not judged better; all 3
configurations are evaluated and the returned combination is ["a"], not
["b"]. -/
theorem claim1_counterexample :
    (evalCand [] c1inv c1targets none none ([itemB], [])).allMet = true
    ∧ (evalCand [] c1inv c1targets none none ([itemB], [])).score = 0
    ∧ (evalCand [] c1inv c1targets none none ([itemA], [])).allMet = true
    ∧ ¬ (evalCand [] c1inv c1targets none none ([itemA], [])).score = 0
    ∧ (candidateConfigs (relevantPool c1inv c1targets)
        (min 5 (relevantPool c1inv c1targets).length)).map
          (fun c => (c.1.map (fun e => e.id), c.2))
        = [([r"a"], []), ([r"b"], []), ([r"a", r"b"], [])]
    ∧ (find_combination_by_target [] c1inv c1targets 5 none none).2 = 3
    ∧ (find_combination_by_target [] c1inv c1targets 5 none none).1.combination
        = some [r"a"]
    ∧ ¬ (find_combination_by_target [] c1inv c1targets 5 none none).1.combination
        = some [r"b"] := by
  refine ⟨by with_unfolding_all decide, by with_unfolding_all decide,
    by with_unfolding_all decide, by with_unfolding_all decide,
    by with_unfolding_all decide, by with_unfolding_all decide,
    by with_unfolding_all decide, by with_unfolding_all decide⟩

/-- The C1 witness inventory: only the exact-hitting item. -/
def c1winv : List Equipment := [itemB]

/-- C1 amended witness: with itemB alone the very first candidate is an
exact match and the search returns it after exactly one evaluation. -/
theorem claim1_amended_witness :
    (find_combination_by_target [] c1winv c1targets 5 none none).1.found = true
    ∧ (find_combination_by_target [] c1winv c1targets 5 none none).2 = 1 := by
  have h := claim1_amended [] c1winv c1targets 5 none none 0
    (by with_unfolding_all decide)
    ⟨by with_unfolding_all decide, by with_unfolding_all decide⟩
    (fun j hj => absurd hj (Nat.not_lt_zero j))
  rw [h]
  exact ⟨rfl, rfl⟩

end D2E
